import Mathlib

/-!
Shallow embedding of the ask-lit backend (src/main.py): the persistent
daily rate limit (`check_rate_limit`), the `/chat` request handler, and the
book search pipeline (`search_google_books_for_quote`) with its filtering,
snippet normalization, placeholder policy and title ranking.

Strings are modelled as `List Char` (`Str`); the Redis store as a map from
key strings to the stored counter value (`redis.get`/`set`/`incr` on a
counter key); the parsed catalog JSON as a status code together with an
optional list of volumes (`"items" in data`).  External calls whose results
the code merely forwards (the OpenAI completion, the HTTP transport) are
inputs of the embedding, not modelled.
-/

namespace AskLit

/-- Python strings, modelled as lists of characters. -/
abbrev Str := List Char

/-- The Redis key-value store restricted to the counter keys the program
uses: each key holds an optional integer counter.  `none` means the key is
absent (never set, or expired). -/
abbrev Store := Str → Option Nat

/-- `DAILY_LIMIT = 10` (src/main.py line 46). -/
def DAILY_LIMIT : Nat := 10

/-- Characters stripped by Python's `str.strip()` (ASCII whitespace; the
inputs in this development are ASCII). -/
def isSpacePy (c : Char) : Bool :=
  c = ' ' || c = '\t' || c = '\n' || c = '\r' || c = '\x0b' || c = '\x0c'

/-- Remove leading whitespace, as the left half of Python `str.strip()`. -/
def stripLeft : Str → Str
  | [] => []
  | c :: rest => if isSpacePy c then stripLeft rest else c :: rest

/-- Remove trailing whitespace, as the right half of Python `str.strip()`. -/
def stripRight : Str → Str
  | [] => []
  | c :: rest =>
    match stripRight rest with
    | [] => if isSpacePy c then [] else [c]
    | r => c :: r

/-- Python `s.strip()`: remove leading and trailing whitespace. -/
def strip (s : Str) : Str := stripRight (stripLeft s)

/-- `true` when the list starts with `'.'`. -/
def startsDot : Str → Bool
  | [] => false
  | c :: _ => c = '.'

/-- `true` when the list starts with `".."`. -/
def startsTwoDots : Str → Bool
  | [] => false
  | c :: t => c = '.' && startsDot t

/-- `true` when the list starts with the three-character marker `"..."`. -/
def startsEllipsis : Str → Bool
  | [] => false
  | c :: t => c = '.' && startsTwoDots t

/-- Python `s.replace("...", "")`: scan left to right and delete each
(non-overlapping) occurrence of `"..."` (src/main.py line 104). -/
def removeEllipsis : Str → Str
  | '.' :: '.' :: '.' :: rest => removeEllipsis rest
  | c :: rest => c :: removeEllipsis rest
  | [] => []

/-- `"..."` occurs somewhere (as a contiguous substring) in the list. -/
def hasEllipsis : Str → Bool
  | [] => false
  | c :: rest => startsEllipsis (c :: rest) || hasEllipsis rest

/-- `search_info.get("textSnippet") or ""` followed by the normalization of
src/main.py line 104: remove every `"..."`, then strip whitespace. -/
def cleanSnippet (textSnippet : Option Str) : Str :=
  strip (removeEllipsis (textSnippet.getD []))

/-- The rate-limit key `f"rate_limit:{ip}:{today}"` (src/main.py line 60). -/
def rateKey (ip today : Str) : Str :=
  "rate_limit:".data ++ ip ++ ":".data ++ today

/-- `check_rate_limit` (src/main.py lines 58-72).  Reads the counter for
`(ip, today)`; if absent, creates it at 1 (the 24h TTL is the window end,
outside a single-window model) and admits; if at or over `DAILY_LIMIT`,
rejects without writing; otherwise increments and admits.  Returns the
admission flag together with the store after the call. -/
def check_rate_limit (store : Store) (ip today : Str) : Bool × Store :=
  let key := rateKey ip today
  match store key with
  | none => (true, fun k => if k = key then some 1 else store k)
  | some count =>
    if DAILY_LIMIT ≤ count then (false, store)
    else (true, fun k => if k = key then some (count + 1) else store k)

/-- An HTTP response, reduced to what the modelled paths produce: the
status code and the JSON body's `"error"` field (`none` on success, where
the body instead carries reply/query/books built from external calls). -/
structure HttpResp where
  status : Nat
  error : Option Str
deriving DecidableEq, Repr

/-- The 429 body's error string (src/main.py line 133). -/
def limitErr : Str :=
  "Daily request limit reached (10 per day). Try again tomorrow.".data

/-- The 400 body's error string (src/main.py line 140). -/
def emptyErr : Str := "Empty message".data

/-- The `/chat` handler (src/main.py lines 127-164) up to the point where
control leaves the program for the external completion/search services.
`ip` stands for `get_client_ip()`; `message` is `data.get("message")` of
the parsed JSON body (`none` when absent).  The quota gate runs first; on
rejection the handler returns 429; otherwise the trimmed message is
validated; the success path returns 200 (its body is assembled from
external results and is outside the claims on this handler).  Returns the
response together with the store after the request. -/
def chat (store : Store) (ip today : Str) (message : Option Str) :
    HttpResp × Store :=
  let res := check_rate_limit store ip today
  if res.1 = false then ({ status := 429, error := some limitErr }, res.2)
  else
    let msg := strip (message.getD [])
    if msg = [] then ({ status := 400, error := some emptyErr }, res.2)
    else ({ status := 200, error := none }, res.2)

/-- The store after `n` sequential `/chat` requests from identity `ip` on
day `today`, starting from an empty store (fresh window); the `i`-th
request carries message `msgs i`. -/
def runChats (ip today : Str) (msgs : Nat → Option Str) : Nat → Store
  | 0 => fun _ => none
  | n + 1 => (chat (runChats ip today msgs n) ip today (msgs n)).2

/-- A candidate volume's `volumeInfo` fields as the code reads them.  Each
field is `none` when the key is absent from the JSON object (so
`dict.get` falls back to its default), `some none` when present but null,
`some (some s)` when a string.  A volume with no `volumeInfo` object at all
is the all-`none` record (`volume.get("volumeInfo", {})`). -/
structure VolumeInfo where
  title : Option (Option Str)
  previewLink : Option (Option Str)
  publishedDate : Option (Option Str)
deriving DecidableEq, Repr

/-- A catalog volume as the code reads it: `volumeInfo`,
`access_info.get("viewability")` (absent and null both give `none`), and
`search_info.get("textSnippet")` (absent and null are identified with
`none`, which line 104's `or ""` sends to the empty string anyway). -/
structure Volume where
  volumeInfo : VolumeInfo
  viewability : Option Str
  textSnippet : Option Str
deriving DecidableEq, Repr

/-- A returned book record (src/main.py lines 108-113): `none` fields model
JSON null. -/
structure Book where
  title : Option Str
  quote : Str
  link : Option Str
  published_date : Option Str
deriving DecidableEq, Repr

/-- Python `d.get(k, default)` on the three-valued field encoding: an
absent key yields the default, a null value yields null. -/
def dictGet (field : Option (Option Str)) (dflt : Str) : Option Str :=
  match field with
  | none => some dflt
  | some v => v

/-- The admission test of src/main.py lines 99-102: viewability must be one
of `PARTIAL`, `ALL_PAGES`, `FULL`, `SAMPLE` (a missing value is never in
the set). -/
def viewabilityOk (v : Option Str) : Bool :=
  match v with
  | some s =>
    s = "PARTIAL".data || s = "ALL_PAGES".data ||
    s = "FULL".data || s = "SAMPLE".data
  | none => false

/-- The loop body of src/main.py lines 94-113 for one volume: `none` when
the candidate is skipped (`continue`), `some book` when it is appended. -/
def processVolume (v : Volume) : Option Book :=
  if viewabilityOk v.viewability = false then none
  else
    let quote := cleanSnippet v.textSnippet
    if quote = [] then none
    else some {
      title := dictGet v.volumeInfo.title "Unknown Title".data,
      quote := quote,
      link := dictGet v.volumeInfo.previewLink "https://books.google.com/".data,
      published_date := dictGet v.volumeInfo.publishedDate "Unknown".data }

/-- The placeholder record of src/main.py lines 116-121. -/
def noResultsBook : Book :=
  { title := none,
    quote := "No previewable books with snippets found.".data,
    link := none,
    published_date := none }

/-- The sort key of src/main.py line 123: `(b["title"] or "").lower()`
(ASCII lowering; the titles in this development are ASCII). -/
def bookKey (b : Book) : Str := (b.title.getD []).map Char.toLower

/-- Lexicographic comparison of strings by code point, as Python compares
`str` values; `lexLe a b` is `a <= b`. -/
def lexLe : Str → Str → Bool
  | [], _ => true
  | _ :: _, [] => false
  | a :: as, b :: bs =>
    if a.toNat = b.toNat then lexLe as bs else decide (a.toNat < b.toNat)

/-- Comparison of books by sort key. -/
def bookLe (a b : Book) : Prop := lexLe (bookKey a) (bookKey b) = true

instance : DecidableRel bookLe := fun a b =>
  instDecidableEqBool (lexLe (bookKey a) (bookKey b)) true

/-- `books.sort(key=lambda b: (b["title"] or "").lower())` (src/main.py
line 123): a stable ascending sort by `bookKey`, modelled by stable
insertion sort. -/
def sortBooks (l : List Book) : List Book := List.insertionSort bookLe l

/-- The books accumulated by the loop of src/main.py lines 91-113:
empty unless the status is 200 and the parsed body has an `"items"` key
(`items = none` models a body without that key). -/
def collectBooks (statusCode : Nat) (items : Option (List Volume)) :
    List Book :=
  if statusCode = 200 then
    match items with
    | some vs => vs.filterMap processVolume
    | none => []
  else []

/-- `search_google_books_for_quote` (src/main.py lines 80-124) as a
function of the catalog service's response: the query only parametrizes the
outbound request, the status code and parsed body determine the result. -/
def search_google_books_for_quote (query : Str) (statusCode : Nat)
    (items : Option (List Volume)) : List Book :=
  let _ := query
  let books := collectBooks statusCode items
  if books = [] then [noResultsBook]
  else sortBooks books

/-! Concrete inputs used to instantiate the theorems below. -/

/-- A sample client identity. -/
def ipW : Str := "1.2.3.4".data

/-- A sample day string. -/
def dayW : Str := "2025-01-01".data

/-- The store of a fresh quota window: no key set. -/
def emptyStoreW : Store := fun _ => none

/-- A store whose counter for `(ipW, dayW)` is at the limit. -/
def storeTen : Store :=
  fun k => if k = rateKey ipW dayW then some 10 else none

/-- A store whose counter for `(ipW, dayW)` is below the limit. -/
def storeFive : Store :=
  fun k => if k = rateKey ipW dayW then some 5 else none

/-- Volume titled "Zebra", previewable, with a snippet. -/
def vZ : Volume :=
  { volumeInfo := { title := some (some "Zebra".data), previewLink := none,
                    publishedDate := none },
    viewability := some "FULL".data,
    textSnippet := some "good quote".data }

/-- Volume titled "apple", previewable, with a snippet. -/
def vA : Volume :=
  { volumeInfo := { title := some (some "apple".data), previewLink := none,
                    publishedDate := none },
    viewability := some "FULL".data,
    textSnippet := some "good quote".data }

/-- Volume whose title is JSON null, previewable, with a snippet. -/
def vN : Volume :=
  { volumeInfo := { title := some none, previewLink := none,
                    publishedDate := none },
    viewability := some "FULL".data,
    textSnippet := some "good quote".data }

/-- Volume whose snippet needs normalizing: interior ellipsis and
surrounding whitespace. -/
def vW : Volume :=
  { volumeInfo := { title := none, previewLink := none, publishedDate := none },
    viewability := some "FULL".data,
    textSnippet := some "  a...b  ".data }

/-- The book `vW` turns into. -/
def bW : Book :=
  { title := some "Unknown Title".data,
    quote := "ab".data,
    link := some "https://books.google.com/".data,
    published_date := some "Unknown".data }

/-- Volume with viewability `NONE` but a valid snippet. -/
def vNoneView : Volume :=
  { volumeInfo := { title := some (some "Hidden".data), previewLink := none,
                    publishedDate := none },
    viewability := some "NONE".data,
    textSnippet := some "a snippet".data }

/-- Volume with viewability `FULL` but an empty snippet. -/
def vFullEmptySnippet : Volume :=
  { volumeInfo := { title := some (some "Silent".data), previewLink := none,
                    publishedDate := none },
    viewability := some "FULL".data,
    textSnippet := some "".data }


/-! ## Helper lemmas: the rate-limit state machine -/

theorem check_rate_limit_fst (s : Store) (ip today : Str) :
    (check_rate_limit s ip today).1 =
      match s (rateKey ip today) with
      | none => true
      | some c => decide (c < DAILY_LIMIT) := by
  unfold check_rate_limit
  cases h : s (rateKey ip today) with
  | none => simp [h]
  | some c =>
    simp only [h]
    split
    · simp; omega
    · simp; omega

theorem check_rate_limit_key (s : Store) (ip today : Str) :
    (check_rate_limit s ip today).2 (rateKey ip today) =
      match s (rateKey ip today) with
      | none => some 1
      | some c => if DAILY_LIMIT ≤ c then some c else some (c + 1) := by
  unfold check_rate_limit
  cases h : s (rateKey ip today) with
  | none => simp [h]
  | some c =>
    simp only [h]
    split
    · simp_all
    · simp

theorem chat_snd (s : Store) (ip today : Str) (m : Option Str) :
    (chat s ip today m).2 = (check_rate_limit s ip today).2 := by
  simp only [chat]
  split
  · rfl
  · split <;> rfl

theorem runChats_key (ip today : Str) (msgs : Nat → Option Str) (n : Nat) :
    runChats ip today msgs n (rateKey ip today) =
      if n = 0 then none else some (min n 10) := by
  induction n with
  | zero => rfl
  | succ n ih =>
    show (chat (runChats ip today msgs n) ip today (msgs n)).2 _ = _
    rw [chat_snd, check_rate_limit_key, ih]
    by_cases h0 : n = 0
    · subst h0; simp
    · simp only [if_neg h0]
      have h1 : ¬ (n + 1 = 0) := by omega
      rw [if_neg h1]
      by_cases h10 : 10 ≤ n
      · have hmin : min n 10 = 10 := by omega
        simp [hmin, DAILY_LIMIT]
        omega
      · have hmin : min n 10 = n := by omega
        have : ¬ (DAILY_LIMIT ≤ min n 10) := by simp [DAILY_LIMIT]; omega
        simp [this]
        omega

/-! ## Helper lemmas: snippet normalization -/

theorem startsDot_eq_true (l : Str) : startsDot l = true ↔ ∃ t, l = '.' :: t := by
  cases l with
  | nil => simp [startsDot]
  | cons c t => simp [startsDot]

theorem startsTwoDots_eq_true (l : Str) :
    startsTwoDots l = true ↔ ∃ t, l = '.' :: '.' :: t := by
  cases l with
  | nil => simp [startsTwoDots]
  | cons c t => simp [startsTwoDots, startsDot_eq_true]

theorem startsEllipsis_eq_true (l : Str) :
    startsEllipsis l = true ↔ ∃ t, l = '.' :: '.' :: '.' :: t := by
  cases l with
  | nil => simp [startsEllipsis]
  | cons c t => simp [startsEllipsis, startsTwoDots_eq_true]

theorem startsDot_removeEllipsis (l : Str) :
    startsDot (removeEllipsis l) = true → startsDot l = true := by
  induction l using removeEllipsis.induct with
  | case1 rest ih =>
    intro _
    simp [startsDot]
  | case2 c rest h ih =>
    rw [removeEllipsis.eq_2 c rest h]
    intro hd
    simp only [startsDot] at hd ⊢
    exact hd
  | case3 => exact fun h => h

theorem startsTwoDots_removeEllipsis (l : Str) :
    startsTwoDots (removeEllipsis l) = true → startsTwoDots l = true := by
  induction l using removeEllipsis.induct with
  | case1 rest ih =>
    intro _
    simp [startsTwoDots, startsDot]
  | case2 c rest h ih =>
    rw [removeEllipsis.eq_2 c rest h]
    intro hd
    simp only [startsTwoDots, Bool.and_eq_true] at hd ⊢
    exact ⟨hd.1, startsDot_removeEllipsis rest hd.2⟩
  | case3 => exact fun h => h

theorem hasEllipsis_removeEllipsis (l : Str) :
    hasEllipsis (removeEllipsis l) = false := by
  induction l using removeEllipsis.induct with
  | case1 rest ih =>
    rw [removeEllipsis.eq_1]
    exact ih
  | case2 c rest h ih =>
    rw [removeEllipsis.eq_2 c rest h]
    cases hR : removeEllipsis rest with
    | nil => simp [hasEllipsis, startsEllipsis, startsTwoDots]
    | cons r rs =>
      rw [← hR]
      simp only [hasEllipsis, Bool.or_eq_false_iff]
      refine ⟨?_, ?_⟩
      · cases hse : startsEllipsis (c :: removeEllipsis rest)
        · rfl
        · exfalso
          obtain ⟨u, hu⟩ := (startsEllipsis_eq_true _).mp hse
          injection hu with h1 h2
          have h2dots : startsTwoDots (removeEllipsis rest) = true := by
            rw [h2]
            simp [startsTwoDots, startsDot]
          obtain ⟨w, hw⟩ :=
            (startsTwoDots_eq_true rest).mp (startsTwoDots_removeEllipsis rest h2dots)
          exact h w h1 hw
      · exact ih
  | case3 => rfl

theorem hasEllipsis_iff (l : Str) :
    hasEllipsis l = true ↔ ∃ x y : Str, l = x ++ '.' :: '.' :: '.' :: y := by
  induction l with
  | nil =>
    simp [hasEllipsis]
  | cons c rest ih =>
    simp only [hasEllipsis, Bool.or_eq_true]
    constructor
    · rintro (hse | hrest)
      · obtain ⟨u, hu⟩ := (startsEllipsis_eq_true _).mp hse
        exact ⟨[], u, by simpa using hu⟩
      · obtain ⟨x, y, hxy⟩ := ih.mp hrest
        exact ⟨c :: x, y, by simp [hxy]⟩
    · rintro ⟨x, y, hxy⟩
      cases x with
      | nil =>
        left
        rw [(startsEllipsis_eq_true _)]
        exact ⟨y, by simpa using hxy⟩
      | cons x0 xs =>
        right
        injection hxy with h1 h2
        exact ih.mpr ⟨xs, y, h2⟩

theorem startsEllipsis_append (a b : Str) (h : startsEllipsis a = true) :
    startsEllipsis (a ++ b) = true := by
  obtain ⟨t, rfl⟩ := (startsEllipsis_eq_true a).mp h
  simp [startsEllipsis, startsTwoDots, startsDot]

theorem hasEllipsis_append_left (a b : Str) (h : hasEllipsis a = true) :
    hasEllipsis (a ++ b) = true := by
  induction a with
  | nil => simp [hasEllipsis] at h
  | cons c rest ih =>
    simp only [hasEllipsis, Bool.or_eq_true] at h
    rcases h with h | h
    · simp only [List.cons_append, hasEllipsis, Bool.or_eq_true]
      left
      have := startsEllipsis_append (c :: rest) b h
      simpa using this
    · simp only [List.cons_append, hasEllipsis, Bool.or_eq_true]
      right
      exact ih h

theorem hasEllipsis_append_right (a b : Str) (h : hasEllipsis b = true) :
    hasEllipsis (a ++ b) = true := by
  induction a with
  | nil => simpa using h
  | cons c rest ih =>
    simp only [List.cons_append, hasEllipsis, Bool.or_eq_true]
    right
    exact ih

theorem stripLeft_decomp (l : Str) : ∃ d, l = d ++ stripLeft l := by
  induction l with
  | nil => exact ⟨[], rfl⟩
  | cons c rest ih =>
    by_cases h : isSpacePy c = true
    · obtain ⟨d, hd⟩ := ih
      refine ⟨c :: d, ?_⟩
      simp only [stripLeft, if_pos h, List.cons_append]
      rw [← hd]
    · exact ⟨[], by simp [stripLeft, h]⟩

theorem stripRight_decomp (l : Str) : ∃ d, l = stripRight l ++ d := by
  induction l with
  | nil => exact ⟨[], rfl⟩
  | cons c rest ih =>
    obtain ⟨d, hd⟩ := ih
    cases hsr : stripRight rest with
    | nil =>
      by_cases h : isSpacePy c = true
      · refine ⟨c :: rest, ?_⟩
        simp [stripRight, hsr, h]
      · refine ⟨rest, ?_⟩
        simp [stripRight, hsr, h]
    | cons r rs =>
      refine ⟨d, ?_⟩
      simp only [stripRight, hsr, List.cons_append]
      rw [hd, hsr]
      rfl

theorem hasEllipsis_strip (l : Str) (h : hasEllipsis (strip l) = true) :
    hasEllipsis l = true := by
  obtain ⟨d1, hd1⟩ := stripLeft_decomp l
  obtain ⟨d2, hd2⟩ := stripRight_decomp (stripLeft l)
  rw [hd1, hd2]
  apply hasEllipsis_append_right
  apply hasEllipsis_append_left
  exact h

theorem stripLeft_head (l : Str) : ∀ c t, stripLeft l = c :: t → isSpacePy c = false := by
  induction l with
  | nil => intro c t h; simp [stripLeft] at h
  | cons c' rest ih =>
    intro c t h
    by_cases hs : isSpacePy c' = true
    · rw [stripLeft, if_pos hs] at h
      exact ih c t h
    · rw [stripLeft, if_neg hs] at h
      injection h with h1 _
      rw [← h1]
      simpa using hs

theorem stripRight_head (l : Str) :
    ∀ c t, stripRight l = c :: t → ∃ t', l = c :: t' := by
  cases l with
  | nil => intro c t h; simp [stripRight] at h
  | cons c' rest =>
    intro c t h
    cases hsr : stripRight rest with
    | nil =>
      rw [stripRight, hsr] at h
      by_cases hs : isSpacePy c' = true
      · rw [if_pos hs] at h; cases h
      · rw [if_neg hs] at h
        injection h with h1 _
        exact ⟨rest, by rw [h1]⟩
    | cons r rs =>
      rw [stripRight, hsr] at h
      injection h with h1 _
      exact ⟨rest, by rw [h1]⟩

theorem strip_head (l : Str) (c : Char) (t : Str) (h : strip l = c :: t) :
    isSpacePy c = false := by
  obtain ⟨t', ht'⟩ := stripRight_head (stripLeft l) c t h
  exact stripLeft_head l c t' ht'

theorem stripRight_last (l : Str) :
    ∀ c t, stripRight l = t ++ [c] → isSpacePy c = false := by
  induction l with
  | nil => intro c t h; simp [stripRight] at h
  | cons c' rest ih =>
    intro c t h
    cases hsr : stripRight rest with
    | nil =>
      rw [stripRight, hsr] at h
      by_cases hs : isSpacePy c' = true
      · rw [if_pos hs] at h
        exact absurd h.symm (List.append_ne_nil_of_right_ne_nil t (by simp))
      · rw [if_neg hs] at h
        cases t with
        | nil =>
          injection h with h1 _
          rw [← h1]
          simpa using hs
        | cons x xs =>
          injection h with _ h2
          simp at h2
    | cons r rs =>
      rw [stripRight, hsr] at h
      cases t with
      | nil =>
        injection h with _ h2
        simp at h2
      | cons x xs =>
        injection h with _ h2
        exact ih c xs (by rw [hsr]; exact h2)

theorem strip_last (l : Str) (c : Char) (t : Str) (h : strip l = t ++ [c]) :
    isSpacePy c = false :=
  stripRight_last (stripLeft l) c t h

/-! ## Helper lemmas: ranking and the pipeline -/

theorem lexLe_total : ∀ a b : Str, lexLe a b = true ∨ lexLe b a = true
  | [], _ => Or.inl rfl
  | _ :: _, [] => Or.inr rfl
  | a :: as, b :: bs => by
    by_cases h : a.toNat = b.toNat
    · have h' : b.toNat = a.toNat := h.symm
      simp only [lexLe, if_pos h, if_pos h']
      exact lexLe_total as bs
    · have h' : ¬ b.toNat = a.toNat := fun hh => h hh.symm
      simp only [lexLe, if_neg h, if_neg h', decide_eq_true_eq]
      omega

theorem lexLe_trans : ∀ a b c : Str,
    lexLe a b = true → lexLe b c = true → lexLe a c = true
  | [], _, _ => by intro _ _; rfl
  | a :: as, [], _ => by intro h _; simp [lexLe] at h
  | _ :: _, _ :: _, [] => by intro _ h; simp [lexLe] at h
  | a :: as, b :: bs, c :: cs => by
    intro h1 h2
    by_cases hab : a.toNat = b.toNat <;> by_cases hbc : b.toNat = c.toNat
    · have hac : a.toNat = c.toNat := hab.trans hbc
      rw [lexLe, if_pos hab] at h1
      rw [lexLe, if_pos hbc] at h2
      rw [lexLe, if_pos hac]
      exact lexLe_trans as bs cs h1 h2
    · rw [lexLe, if_neg hbc, decide_eq_true_eq] at h2
      have hac : ¬ a.toNat = c.toNat := by omega
      rw [lexLe, if_neg hac, decide_eq_true_eq]
      omega
    · rw [lexLe, if_neg hab, decide_eq_true_eq] at h1
      have hac : ¬ a.toNat = c.toNat := by omega
      rw [lexLe, if_neg hac, decide_eq_true_eq]
      omega
    · rw [lexLe, if_neg hab, decide_eq_true_eq] at h1
      rw [lexLe, if_neg hbc, decide_eq_true_eq] at h2
      have hac : ¬ a.toNat = c.toNat := by omega
      rw [lexLe, if_neg hac, decide_eq_true_eq]
      omega

theorem bookLe_total : ∀ a b : Book, bookLe a b ∨ bookLe b a :=
  fun a b => lexLe_total (bookKey a) (bookKey b)

theorem bookLe_trans : ∀ a b c : Book, bookLe a b → bookLe b c → bookLe a c :=
  fun a b c => lexLe_trans (bookKey a) (bookKey b) (bookKey c)

theorem processVolume_quote (v : Volume) (b : Book) (h : processVolume v = some b) :
    b.quote = cleanSnippet v.textSnippet := by
  simp only [processVolume] at h
  split at h
  · exact absurd h (by simp)
  · split at h
    · exact absurd h (by simp)
    · injection h with h'
      rw [← h']

theorem mem_search (q : Str) (status : Nat) (items : Option (List Volume)) (b : Book)
    (hb : b ∈ search_google_books_for_quote q status items) :
    b = noResultsBook ∨ ∃ v, processVolume v = some b := by
  simp only [search_google_books_for_quote] at hb
  split at hb
  · left
    simpa using hb
  · right
    have hb' : b ∈ collectBooks status items := by
      unfold sortBooks at hb
      exact (List.mem_insertionSort bookLe).mp hb
    unfold collectBooks at hb'
    split at hb'
    · cases items with
      | none => simp at hb'
      | some vs =>
        obtain ⟨v, _, hpv⟩ := List.mem_filterMap.mp hb'
        exact ⟨v, hpv⟩
    · simp at hb'

/-! ## Claims C1 to C4: quota gate and the chat handler -/

/-- C1: for every identity, under sequential execution within one quota
window (one `today`), the first 10 `/chat` requests pass the quota gate
(`check_rate_limit` returns `true`) and the 11th is rejected with HTTP 429
and the quota-exceeded error body, whatever the messages are. -/
theorem c1_first_ten_admitted_eleventh_rejected (ip today : Str) (msgs : Nat → Option Str) :
    (∀ i, i < 10 → (check_rate_limit (runChats ip today msgs i) ip today).1 = true) ∧
    (chat (runChats ip today msgs 10) ip today (msgs 10)).1 =
      { status := 429, error := some limitErr } := by
  constructor
  · intro i hi
    rw [check_rate_limit_fst, runChats_key]
    by_cases h0 : i = 0
    · simp [h0]
    · have : min i 10 = i := by omega
      simp [h0, this, DAILY_LIMIT]
      omega
  · have hf : (check_rate_limit (runChats ip today msgs 10) ip today).1 = false := by
      rw [check_rate_limit_fst, runChats_key]
      simp [DAILY_LIMIT]
    simp only [chat]
    rw [hf]
    simp

/-- C1 witness: the theorem instantiated at a concrete identity, day and
message sequence. -/
theorem c1_witness :
    (check_rate_limit (runChats ipW dayW (fun _ => some "hi".data) 5) ipW dayW).1 = true ∧
    (chat (runChats ipW dayW (fun _ => some "hi".data) 10) ipW dayW (some "hi".data)).1 =
      { status := 429, error := some limitErr } :=
  ⟨(c1_first_ten_admitted_eleventh_rejected ipW dayW (fun _ => some "hi".data)).1 5 (by decide),
   (c1_first_ten_admitted_eleventh_rejected ipW dayW (fun _ => some "hi".data)).2⟩

/-- C2: under sequential execution the stored counter never exceeds the
daily limit of 10: a read of a count at or over the limit rejects and
leaves the store untouched, admission over an existing record implies the
count observed before the increment was below the limit, and a counter at
most 10 stays at most 10 across a call. -/
theorem c2_counter_invariant (store : Store) (ip today : Str) :
    (∀ c, store (rateKey ip today) = some c → DAILY_LIMIT ≤ c →
      (check_rate_limit store ip today).1 = false ∧
      (check_rate_limit store ip today).2 = store) ∧
    (∀ c, (check_rate_limit store ip today).1 = true →
      store (rateKey ip today) = some c → c < DAILY_LIMIT) ∧
    ((store (rateKey ip today)).getD 0 ≤ DAILY_LIMIT →
      ((check_rate_limit store ip today).2 (rateKey ip today)).getD 0 ≤ DAILY_LIMIT) := by
  refine ⟨?_, ?_, ?_⟩
  · intro c hc hge
    constructor
    · rw [check_rate_limit_fst, hc]; simp; omega
    · simp only [check_rate_limit, hc]
      simp [if_pos hge]
  · intro c htrue hc
    rw [check_rate_limit_fst, hc] at htrue
    simpa using htrue
  · intro hle
    rw [check_rate_limit_key]
    cases hc : store (rateKey ip today) with
    | none => simp [DAILY_LIMIT]
    | some c =>
      rw [hc] at hle
      simp at hle
      by_cases h : DAILY_LIMIT ≤ c
      · simp [h]; omega
      · simp [h]; omega

/-- C2 witness: the three parts instantiated at concrete stores holding 10
and 5 for the key. -/
theorem c2_witness :
    ((check_rate_limit storeTen ipW dayW).1 = false ∧
     (check_rate_limit storeTen ipW dayW).2 = storeTen) ∧
    (5 < DAILY_LIMIT) ∧
    ((check_rate_limit storeTen ipW dayW).2 (rateKey ipW dayW)).getD 0 ≤ DAILY_LIMIT :=
  ⟨(c2_counter_invariant storeTen ipW dayW).1 10 (by decide) (by decide),
   (c2_counter_invariant storeFive ipW dayW).2.1 5 (by decide) (by decide),
   (c2_counter_invariant storeTen ipW dayW).2.2 (by decide)⟩

/-- C3 counterexample: from a fresh store, posting the whitespace-only
message does return 400 with the Empty message error, but the persistent
counter for the identity changes from absent to 1 — the request consumes
quota, refuting the claim that the counter is unchanged. -/
theorem c3_counterexample :
    (chat emptyStoreW ipW dayW (some "   ".data)).1 =
      { status := 400, error := some emptyErr } ∧
    emptyStoreW (rateKey ipW dayW) = none ∧
    (chat emptyStoreW ipW dayW (some "   ".data)).2 (rateKey ipW dayW) = some 1 := by
  decide

/-- C3 amended: a request whose message is absent or blank after trimming
returns 400 with the Empty message error (when the quota gate admits), but
the request does consume quota: the counter for the identity is one larger
after the request, because the gate runs and mutates before validation. -/
theorem c3_blank_message_consumes_quota (store : Store) (ip today : Str) (m : Option Str)
    (hblank : strip (m.getD []) = [])
    (hbelow : (store (rateKey ip today)).getD 0 < DAILY_LIMIT) :
    (chat store ip today m).1 = { status := 400, error := some emptyErr } ∧
    ((chat store ip today m).2 (rateKey ip today)).getD 0 =
      (store (rateKey ip today)).getD 0 + 1 := by
  have hf : (check_rate_limit store ip today).1 = true := by
    rw [check_rate_limit_fst]
    cases hc : store (rateKey ip today) with
    | none => simp
    | some c => rw [hc] at hbelow; simp at hbelow ⊢; omega
  constructor
  · simp only [chat]
    rw [hf]
    simp [hblank]
  · rw [chat_snd, check_rate_limit_key]
    cases hc : store (rateKey ip today) with
    | none => simp
    | some c =>
      rw [hc] at hbelow
      simp at hbelow
      have : ¬ (DAILY_LIMIT ≤ c) := by omega
      simp [this]

/-- C3 amended witness: the amended theorem at a concrete store holding 5,
with the whitespace-only message. -/
theorem c3_blank_witness :
    (chat storeFive ipW dayW (some "   ".data)).1 = { status := 400, error := some emptyErr } ∧
    ((chat storeFive ipW dayW (some "   ".data)).2 (rateKey ipW dayW)).getD 0 =
      (storeFive (rateKey ipW dayW)).getD 0 + 1 :=
  c3_blank_message_consumes_quota storeFive ipW dayW (some "   ".data) (by decide) (by decide)

/-- C4: the quota gate runs before message validation: when the stored
counter for the identity is at or over the limit, `/chat` answers 429 with
the quota-exceeded body for every message, including absent or blank ones —
never 400. -/
theorem c4_quota_gate_before_validation (store : Store) (ip today : Str) (m : Option Str)
    (c : Nat) (hc : store (rateKey ip today) = some c) (hge : DAILY_LIMIT ≤ c) :
    (chat store ip today m).1 = { status := 429, error := some limitErr } ∧
    (chat store ip today m).1.status ≠ 400 := by
  have hf : (check_rate_limit store ip today).1 = false := by
    rw [check_rate_limit_fst, hc]; simp; omega
  have : (chat store ip today m).1 = { status := 429, error := some limitErr } := by
    simp only [chat]
    rw [hf]
    simp
  exact ⟨this, by rw [this]; decide⟩

/-- C4 witness: the theorem at a store holding 10 and the whitespace-only
message. -/
theorem c4_witness :
    (chat storeTen ipW dayW (some "   ".data)).1 = { status := 429, error := some limitErr } ∧
    (chat storeTen ipW dayW (some "   ".data)).1.status ≠ 400 :=
  c4_quota_gate_before_validation storeTen ipW dayW (some "   ".data) 10 (by decide) (by decide)

/-! ## Claims C5 to C10: search, filtering, ranking -/

/-- C5: the search keeps a candidate volume if and only if its viewability
is one of PARTIAL, ALL_PAGES, FULL, SAMPLE and its snippet is non-empty
after ellipsis removal and trimming; in particular a NONE-viewability
candidate with a snippet and a FULL candidate with an empty snippet are
both discarded. -/
theorem c5_filter_keeps_iff :
    (∀ v : Volume, (processVolume v).isSome = true ↔
      viewabilityOk v.viewability = true ∧ cleanSnippet v.textSnippet ≠ []) ∧
    processVolume vNoneView = none ∧
    processVolume vFullEmptySnippet = none := by
  refine ⟨?_, by decide, by decide⟩
  intro v
  simp only [processVolume]
  split
  · rename_i hv
    simp_all
  · rename_i hv
    split
    · rename_i hq
      simp_all
    · rename_i hq
      simp_all

/-- C5 witness: the biconditional instantiated at a concrete admissible
volume, plus the discarded NONE-viewability volume. -/
theorem c5_witness :
    (processVolume vW).isSome = true ∧ processVolume vNoneView = none :=
  ⟨(c5_filter_keeps_iff.1 vW).mpr ⟨by decide, by decide⟩, c5_filter_keeps_iff.2.1⟩

/-- C6: whenever zero candidates survive filtering (no items, or all
filtered out), the search returns exactly the single placeholder record
whose quote is the fixed no-results message and whose title, link and
published date are absent; the search never returns an empty list. -/
theorem c6_placeholder_policy (q : Str) (status : Nat) (items : Option (List Volume)) :
    search_google_books_for_quote q status items ≠ [] ∧
    (collectBooks status items = [] →
      search_google_books_for_quote q status items = [noResultsBook]) ∧
    noResultsBook.title = none ∧ noResultsBook.link = none ∧
    noResultsBook.published_date = none ∧
    noResultsBook.quote = "No previewable books with snippets found.".data := by
  refine ⟨?_, ?_, rfl, rfl, rfl, rfl⟩
  · simp only [search_google_books_for_quote]
    split
    · simp
    · rename_i hne
      unfold sortBooks
      intro hnil
      have hlen := List.length_insertionSort (r := bookLe) (collectBooks status items)
      rw [hnil] at hlen
      simp at hlen
      exact hne (List.length_eq_zero.mp hlen.symm)
  · intro h
    simp [search_google_books_for_quote, h]

/-- C6 witness: the theorem at status 200 with a body without items. -/
theorem c6_witness :
    search_google_books_for_quote [] 200 none ≠ [] ∧
    search_google_books_for_quote [] 200 none = [noResultsBook] :=
  ⟨(c6_placeholder_policy [] 200 none).1,
   (c6_placeholder_policy [] 200 none).2.1 (by decide)⟩

/-- C7: a non-success HTTP status from the catalog service behaves exactly
as if the response contained no items: the result is the single placeholder
record and no error is surfaced. -/
theorem c7_non_success_like_no_items (q : Str) (status : Nat)
    (items : Option (List Volume)) (h : status ≠ 200) :
    search_google_books_for_quote q status items =
      search_google_books_for_quote q status none ∧
    search_google_books_for_quote q status items = [noResultsBook] := by
  have hc : collectBooks status items = [] := by
    unfold collectBooks
    rw [if_neg h]
  have hc' : collectBooks status none = [] := by
    unfold collectBooks
    rw [if_neg h]
  constructor
  · simp [search_google_books_for_quote, hc, hc']
  · simp [search_google_books_for_quote, hc]

/-- C7 witness: the theorem at status 500 with a body that does carry an
otherwise admissible item. -/
theorem c7_witness :
    search_google_books_for_quote [] 500 (some [vW]) =
      search_google_books_for_quote [] 500 none ∧
    search_google_books_for_quote [] 500 (some [vW]) = [noResultsBook] :=
  c7_non_success_like_no_items [] 500 (some [vW]) (by decide)

/-- C8: every result list of the search is sorted ascending with respect to
the case-insensitive title key; an entry with no title has the empty string
as its key, and the empty string is least in the order, so such entries
sort first. -/
theorem c8_ranking_sorted (q : Str) (status : Nat) (items : Option (List Volume)) :
    List.Pairwise bookLe (search_google_books_for_quote q status items) ∧
    (∀ b : Book, b.title = none → bookKey b = []) ∧
    (∀ s : Str, lexLe [] s = true) := by
  refine ⟨?_, ?_, fun s => rfl⟩
  · simp only [search_google_books_for_quote]
    split
    · simp
    · haveI : IsTotal Book bookLe := ⟨bookLe_total⟩
      haveI : IsTrans Book bookLe := ⟨bookLe_trans⟩
      exact List.sorted_insertionSort bookLe (collectBooks status items)
  · intro b hb
    simp [bookKey, hb]

/-- C8 witness: the theorem at the three-volume catalog response and a
concrete titleless book. -/
theorem c8_witness :
    List.Pairwise bookLe (search_google_books_for_quote [] 200 (some [vZ, vA, vN])) ∧
    bookKey { title := none, quote := "q".data, link := none, published_date := none } = [] ∧
    lexLe [] "x".data = true :=
  ⟨(c8_ranking_sorted [] 200 (some [vZ, vA, vN])).1,
   (c8_ranking_sorted [] 200 (some [vZ, vA, vN])).2.1 _ rfl,
   (c8_ranking_sorted [] 200 (some [vZ, vA, vN])).2.2 "x".data⟩

/-- C9 counterexample: for the three catalog items with titles Zebra,
apple and null (all previewable with valid snippets), the output titles are
not in the claimed order apple, Zebra, absent-last. -/
theorem c9_counterexample :
    (search_google_books_for_quote [] 200 (some [vZ, vA, vN])).map Book.title ≠
      [some "apple".data, some "Zebra".data, none] := by
  decide

/-- C9 amended: for the three catalog items with titles Zebra, apple and
null, the output titles appear in the order absent first, then apple, then
Zebra (case-insensitive ascending with the empty key first). -/
theorem c9_absent_title_first :
    (search_google_books_for_quote [] 200 (some [vZ, vA, vN])).map Book.title =
      [none, some "apple".data, some "Zebra".data] := by
  decide

/-- C10: every non-placeholder book returned by the search has a quote with
no occurrence of the three-character marker `"..."` anywhere — interior
occurrences included — and no leading or trailing whitespace. -/
theorem c10_quote_normalized (q : Str) (status : Nat) (items : Option (List Volume))
    (b : Book) (hmem : b ∈ search_google_books_for_quote q status items)
    (hb : b ≠ noResultsBook) :
    hasEllipsis b.quote = false ∧
    (¬ ∃ x y : Str, b.quote = x ++ '.' :: '.' :: '.' :: y) ∧
    (∀ c t, b.quote = c :: t → isSpacePy c = false) ∧
    (∀ c t, b.quote = t ++ [c] → isSpacePy c = false) := by
  rcases mem_search q status items b hmem with h | ⟨v, hv⟩
  · exact absurd h hb
  · have hq : b.quote = cleanSnippet v.textSnippet := processVolume_quote v b hv
    have hE : hasEllipsis b.quote = false := by
      rw [hq]
      cases hco : hasEllipsis (cleanSnippet v.textSnippet)
      · rfl
      · exfalso
        have h1 : hasEllipsis (removeEllipsis (v.textSnippet.getD [])) = true :=
          hasEllipsis_strip _ hco
        rw [hasEllipsis_removeEllipsis] at h1
        cases h1
    refine ⟨hE, ?_, ?_, ?_⟩
    · rintro ⟨x, y, hxy⟩
      rw [(hasEllipsis_iff b.quote).mpr ⟨x, y, hxy⟩] at hE
      cases hE
    · intro c t hct
      rw [hq] at hct
      exact strip_head _ c t hct
    · intro c t hct
      rw [hq] at hct
      exact strip_last _ c t hct

/-- C10 witness: the theorem at a one-volume response whose snippet has an
interior ellipsis and surrounding whitespace. -/
theorem c10_witness :
    hasEllipsis bW.quote = false ∧
    isSpacePy 'a' = false ∧ isSpacePy 'b' = false := by
  have h := c10_quote_normalized [] 200 (some [vW]) bW (by decide) (by decide)
  exact ⟨h.1, h.2.2.1 'a' "b".data (by decide), h.2.2.2 'b' "a".data (by decide)⟩

end AskLit
